import Mathlib

/-!
Verification of the form-definition core of a form-builder web application.

The code under scrutiny:
* `generateSlug` in `src/app/api/forms/route.ts` (duplicated in the
  form-builder client): lower-case the title, replace every maximal run of
  characters outside `[a-z0-9]` with a single `-` (regex
  `/[^a-z0-9]+/g → '-'`), then delete a leading and a trailing `-`
  (regex `/(^-|-$)/g → ''`).
* the `POST` handler of the same file (create a form definition);
* `getForm`/`FormPage` in `src/app/forms/[slug]/page.tsx` (read by slug and
  render).

Strings are modelled at character level as `List Char` where character
classes matter, and as Lean `String` elsewhere.
-/

namespace FormApp

/-- The character class `[a-z0-9]` kept verbatim by the slug regex. -/
def isSlugChar (c : Char) : Bool :=
  ('a' ≤ c && c ≤ 'z') || ('0' ≤ c && c ≤ '9')

/-- Per-character model of JavaScript `String.prototype.toLowerCase`.
Only the ASCII range can influence the slug pipeline (every character not
in `[a-z0-9]` is collapsed to `-` afterwards), so the ASCII mapping
`A-Z ↦ a-z` is the faithful fragment. -/
def jsToLower (c : Char) : Char :=
  if 'A' ≤ c && c ≤ 'Z' then Char.ofNat (c.toNat + 32) else c

/-- Model of `.replace(/[^a-z0-9]+/g, '-')`: each maximal run of
characters outside `[a-z0-9]` becomes a single `'-'`.  The boolean state
records whether we are inside such a run (its output `'-'` already
emitted). -/
def collapseAux : Bool → List Char → List Char
  | _, [] => []
  | inRun, c :: cs =>
    if isSlugChar c then c :: collapseAux false cs
    else if inRun then collapseAux inRun cs
    else '-' :: collapseAux true cs

/-- Model of `.replace(/[^a-z0-9]+/g, '-')` on a whole string. -/
def collapseNonSlug (l : List Char) : List Char := collapseAux false l

/-- The `^-` half of `.replace(/(^-|-$)/g, '')`: delete one leading `'-'`. -/
def dropLeadingDash : List Char → List Char
  | [] => []
  | c :: t => if c = '-' then t else c :: t

/-- The `-$` half of `.replace(/(^-|-$)/g, '')`: delete one trailing `'-'`. -/
def dropTrailingDash : List Char → List Char
  | [] => []
  | [c] => if c = '-' then [] else [c]
  | c :: d :: t => c :: dropTrailingDash (d :: t)

/-- Model of `.replace(/(^-|-$)/g, '')`: the global regex anchors at the two string
edges, so it removes at most one leading and one trailing dash. -/
def stripEdgeDashes (l : List Char) : List Char :=
  dropTrailingDash (dropLeadingDash l)

/-- Model of `generateSlug` from `src/app/api/forms/route.ts`, at character level. -/
def generateSlug (l : List Char) : List Char :=
  stripEdgeDashes (collapseNonSlug (l.map jsToLower))

/-- The slug generator applied to a Lean string. -/
def generateSlugS (s : String) : String := ⟨generateSlug s.data⟩

/-- Every character is in `[a-z0-9]` or is a dash. -/
def slugCharsOk (l : List Char) : Bool :=
  l.all (fun c => isSlugChar c || c == '-')

/-- No two adjacent dashes. -/
def noDoubleDash : List Char → Bool
  | [] => true
  | [_] => true
  | a :: b :: t => !(a == '-' && b == '-') && noDoubleDash (b :: t)

/-- The six field kinds of the `FieldType` union in
`src/app/api/forms/route.ts` and the form-builder client. -/
inductive FieldType where
  | TEXT | TEXTAREA | NUMBER | EMAIL | RADIO | CHECKBOX
deriving DecidableEq, Repr

/-- A field as serialized into the create request body by the
form-builder client (`FormField` in `src/unnamed/part_000`): `options` is
present for RADIO/CHECKBOX fields.  The API route's own `FormField`
interface reads only `label`, `type`, `required` and `order` of it. -/
structure ReqField where
  id : String
  label : String
  type : FieldType
  required : Bool
  order : Int
  options : Option (List String)
deriving DecidableEq, Repr

/-- The create request body as produced by `saveForm` in
`src/unnamed/part_000` (`JSON.stringify(formData)`): it carries the
user-editable `slug` besides `title` and `fields`.  The route's
`CreateFormRequest` interface destructures only `title` and `fields`. -/
structure CreateFormRequest where
  title : String
  slug : String
  fields : List ReqField
deriving DecidableEq, Repr

/-- A persisted field: exactly the four attributes the route passes to
the storage create operation (`fields.create` maps each submitted field
to `{ label, type, required, order }` — route.ts lines 57-62). -/
structure StoredField where
  label : String
  type : FieldType
  required : Bool
  order : Int
deriving DecidableEq, Repr

/-- A persisted form definition. -/
structure Form where
  title : String
  slug : String
  fields : List StoredField
deriving DecidableEq, Repr

/-- The per-field mapping inside `prisma.form.create` (route.ts lines
57-62): keeps label/type/required/order; anything else in the submitted
field (its client `id`, its `options` list) is dropped. -/
def mkStored (f : ReqField) : StoredField :=
  { label := f.label, type := f.type, required := f.required,
    order := f.order }

/-- Insertion step of the storage collaborator's `orderBy: order asc`. -/
def insertField (f : StoredField) : List StoredField → List StoredField
  | [] => [f]
  | g :: t => if f.order ≤ g.order then f :: g :: t else g :: insertField f t

/-- Model of the storage collaborator's `orderBy: { order: 'asc' }` on a
field list (used by the create response and by reads). -/
def sortFields : List StoredField → List StoredField
  | [] => []
  | f :: t => insertField f (sortFields t)

/-- The field list is sorted by `order` ascending. -/
def fieldsOrdered : List StoredField → Bool
  | [] => true
  | [_] => true
  | a :: b :: t => decide (a.order ≤ b.order) && fieldsOrdered (b :: t)

/-- Model of `prisma.form.findUnique({ where: { slug } })` over a storage state
modelled as the list of persisted forms in creation order. -/
def findUniqueSlug (state : List Form) (slug : String) : Option Form :=
  state.find? (fun f => f.slug == slug)

/-- The outcomes of the `POST` handler of `src/app/api/forms/route.ts`:
201 with the saved form, 400 `Missing required fields`,
409 `A form with this URL already exists`, 500 `Internal server error`. -/
inductive PostResult where
  | created (form : Form)
  | missingFields
  | slugConflict
  | serverError
deriving DecidableEq, Repr

/-- The `POST` handler of `src/app/api/forms/route.ts` with the storage
collaborator behaving sequentially and without faults.  `!title` is
string falsiness, i.e. `title = ""`; `!fields || fields.length === 0`
collapses to `fields = []`.  The created form is returned with its
fields ordered by `order` ascending (`include: { fields: { orderBy:
{ order: 'asc' } } }`); the stored state gains the new form. -/
def POST (body : CreateFormRequest) (state : List Form) :
    PostResult × List Form :=
  if body.title = "" ∨ body.fields = [] then
    (PostResult.missingFields, state)
  else
    let slug := generateSlugS body.title
    match findUniqueSlug state slug with
    | some _ => (PostResult.slugConflict, state)
    | none =>
      let newForm : Form :=
        { title := body.title, slug := slug,
          fields := body.fields.map mkStored }
      (PostResult.created { newForm with fields := sortFields newForm.fields },
       state ++ [newForm])

/-- Failure signals the storage collaborator can raise at create time
(§5/§6 of the design: the uniqueness constraint rejecting a racing
duplicate slug, or any other storage fault). -/
inductive StorageFailure where
  | uniqueViolation
  | otherFailure
deriving DecidableEq, Repr

/-- The same `POST` handler control flow with the results of the two
storage calls passed in explicitly, so that a create-time failure (e.g. a
uniqueness violation that the pre-check missed under a race) can be
expressed.  The whole handler body sits in a single `try`/`catch`; the
`catch` returns 500 `Internal server error` for every thrown error and
never inspects a uniqueness-violation code. -/
def POSTLow (body : CreateFormRequest) (findResult : Option Form)
    (createResult : Except StorageFailure Form) : PostResult :=
  if body.title = "" ∨ body.fields = [] then PostResult.missingFields
  else
    match findResult with
    | some _ => PostResult.slugConflict
    | none =>
      match createResult with
      | Except.ok f => PostResult.created f
      | Except.error _ => PostResult.serverError

/-- Model of `getForm` in `src/app/forms/[slug]/page.tsx`: `findUnique` by slug
with fields included ordered by `order` ascending; `null` when absent. -/
def getForm (state : List Form) (slug : String) : Option Form :=
  match findUniqueSlug state slug with
  | some f => some { f with fields := sortFields f.fields }
  | none => none

/-- What `FormPage` does with `getForm`'s result: `notFound()` on `null`,
otherwise render the definition. -/
inductive PageResult where
  | render (form : Form)
  | notFound
deriving DecidableEq, Repr

/-- The `FormPage` component of `src/app/forms/[slug]/page.tsx`. -/
def FormPage (state : List Form) (slug : String) : PageResult :=
  match getForm state slug with
  | some f => PageResult.render f
  | none => PageResult.notFound

/-- The option `value`s the rendering template of
`src/app/forms/[slug]/page.tsx` emits for a field: for RADIO and
CHECKBOX it hard-codes two inputs with values `option1` and `option2`
(lines 79-124), independent of anything submitted or stored. -/
def renderedOptionValues (f : StoredField) : List String :=
  match f.type with
  | FieldType.RADIO => ["option1", "option2"]
  | FieldType.CHECKBOX => ["option1", "option2"]
  | _ => []

/-- A plain TEXT field spec with client-supplied `order` 7. -/
def textField7 : ReqField :=
  { id := "f1", label := "q", type := FieldType.TEXT, required := false,
    order := 7, options := none }

/-- A request whose single field carries client-supplied `order` 7. -/
def cexBody : CreateFormRequest :=
  { title := "a", slug := "", fields := [textField7] }

/-- The form the code persists for `cexBody`. -/
def cexSaved : Form :=
  { title := "a", slug := "a",
    fields := [{ label := "q", type := FieldType.TEXT, required := false,
                 order := 7 }] }

/-- A plain TEXT field spec with `order` 0. -/
def textField0 : ReqField :=
  { id := "f1", label := "q", type := FieldType.TEXT, required := false,
    order := 0, options := none }

/-- A RADIO field submitted with the options list `["a", ""]`. -/
def radioField : ReqField :=
  { id := "f1", label := "pick", type := FieldType.RADIO, required := false,
    order := 0, options := some ["a", ""] }

/-- A request containing `radioField`. -/
def radioBody : CreateFormRequest :=
  { title := "b", slug := "", fields := [radioField] }

/-- The form the code persists for `radioBody`: no options survive. -/
def radioSaved : Form :=
  { title := "b", slug := "b",
    fields := [{ label := "pick", type := FieldType.RADIO, required := false,
                 order := 0 }] }

/-- A request whose title is three spaces. -/
def wsBody : CreateFormRequest :=
  { title := "   ", slug := "", fields := [textField0] }

/-- A request whose title has no ASCII alphanumeric characters. -/
def kanjiBody : CreateFormRequest :=
  { title := "数字", slug := "", fields := [textField0] }

/-- First of two requests whose titles derive the slug `my-form`. -/
def dupBody1 : CreateFormRequest :=
  { title := "My Form!", slug := "", fields := [textField0] }

/-- Second request deriving the same slug `my-form`. -/
def dupBody2 : CreateFormRequest :=
  { title := "my form", slug := "x", fields := [textField7] }

/-- A stored definition used to exercise the read path. -/
def demoForm : Form :=
  { title := "Demo", slug := "demo",
    fields := [{ label := "b", type := FieldType.TEXT, required := false,
                 order := 1 },
               { label := "a", type := FieldType.TEXT, required := true,
                 order := 0 }] }

theorem isSlugChar_ne_dash {c : Char} (h : isSlugChar c = true) : c ≠ '-' := by
  rintro rfl
  simp [isSlugChar] at h

theorem jsToLower_fixes_slugChar {c : Char} (h : isSlugChar c = true) :
    jsToLower c = c := by
  unfold isSlugChar at h
  unfold jsToLower
  rcases Bool.or_eq_true_iff.mp h with h1 | h1 <;>
    rcases Bool.and_eq_true_iff.mp h1 with ⟨ha, hb⟩ <;>
    rw [if_neg] <;>
    intro hAZ <;>
    rcases Bool.and_eq_true_iff.mp hAZ with ⟨hA, hZ⟩
  · exact absurd (le_trans (of_decide_eq_true ha) (of_decide_eq_true hZ))
      (by decide)
  · exact absurd (le_trans (of_decide_eq_true hA) (of_decide_eq_true hb))
      (by decide)

theorem jsToLower_dash : jsToLower '-' = '-' := by decide

theorem slugCharsOk_cons {c : Char} {l : List Char} :
    slugCharsOk (c :: l) = ((isSlugChar c || c == '-') && slugCharsOk l) := by
  simp [slugCharsOk]

theorem collapseAux_chars (b : Bool) (l : List Char) :
    slugCharsOk (collapseAux b l) = true := by
  induction l generalizing b with
  | nil => rfl
  | cons c cs ih =>
    by_cases hc : isSlugChar c = true
    · simp only [collapseAux, hc, if_true, slugCharsOk_cons, hc,
        Bool.true_or, Bool.true_and]
      exact ih false
    · simp only [collapseAux, hc, if_false, Bool.false_eq_true]
      cases b with
      | true => exact ih true
      | false =>
        simp only [if_false, slugCharsOk_cons, Bool.false_eq_true]
        have : (isSlugChar '-' || '-' == '-') = true := by decide
        rw [this, Bool.true_and]
        exact ih true

theorem collapseAux_true_head (l : List Char) {c : Char}
    (h : (collapseAux true l).head? = some c) : isSlugChar c = true := by
  induction l with
  | nil => simp [collapseAux] at h
  | cons d cs ih =>
    by_cases hd : isSlugChar d = true
    · simp only [collapseAux, hd, if_true, List.head?_cons,
        Option.some.injEq] at h
      exact h ▸ hd
    · simp only [collapseAux, hd, if_false, if_true, Bool.false_eq_true] at h
      exact ih h

theorem noDoubleDash_cons {c : Char} {l : List Char}
    (hl : noDoubleDash l = true)
    (hh : ∀ d, l.head? = some d → ¬(c = '-' ∧ d = '-')) :
    noDoubleDash (c :: l) = true := by
  cases l with
  | nil => rfl
  | cons d t =>
    have hcd : (c == '-' && d == '-') = false := by
      have := hh d rfl
      cases hc : c == '-' with
      | false => simp
      | true =>
        cases hd : d == '-' with
        | false => simp
        | true =>
          exact absurd ⟨eq_of_beq hc, eq_of_beq hd⟩ this
    simp [noDoubleDash, hcd, hl]

theorem collapseAux_noDD (b : Bool) (l : List Char) :
    noDoubleDash (collapseAux b l) = true := by
  induction l generalizing b with
  | nil => rfl
  | cons c cs ih =>
    by_cases hc : isSlugChar c = true
    · simp only [collapseAux, hc, if_true]
      refine noDoubleDash_cons (ih false) ?_
      rintro d _ ⟨hc', _⟩
      exact isSlugChar_ne_dash hc hc'
    · simp only [collapseAux, hc, if_false, Bool.false_eq_true]
      cases b with
      | true => exact ih true
      | false =>
        show noDoubleDash ('-' :: collapseAux true cs) = true
        refine noDoubleDash_cons (ih true) ?_
        rintro d hd ⟨_, hd'⟩
        exact isSlugChar_ne_dash (collapseAux_true_head cs hd) hd'

theorem noDoubleDash_tail {c : Char} {l : List Char}
    (h : noDoubleDash (c :: l) = true) : noDoubleDash l = true := by
  cases l with
  | nil => rfl
  | cons d t =>
    simp only [noDoubleDash, Bool.and_eq_true] at h
    exact h.2

theorem noDoubleDash_pair {c d : Char} {t : List Char}
    (h : noDoubleDash (c :: d :: t) = true) : ¬(c = '-' ∧ d = '-') := by
  rintro ⟨rfl, rfl⟩
  simp [noDoubleDash] at h

theorem noDoubleDash_dash_head {l : List Char}
    (h : noDoubleDash ('-' :: l) = true) : l.head? ≠ some '-' := by
  cases l with
  | nil => simp
  | cons d t =>
    intro hd
    have hd' : d = '-' := by
      simp only [List.head?_cons, Option.some.injEq] at hd
      exact hd
    exact noDoubleDash_pair h ⟨rfl, hd'⟩

theorem dropLeadingDash_cons (c : Char) (t : List Char) :
    dropLeadingDash (c :: t) = if c = '-' then t else c :: t := rfl

theorem dropTrailingDash_singleton (c : Char) :
    dropTrailingDash [c] = if c = '-' then [] else [c] := rfl

theorem dropTrailingDash_cons₂ (c d : Char) (t : List Char) :
    dropTrailingDash (c :: d :: t) = c :: dropTrailingDash (d :: t) := rfl

theorem slugCharsOk_tail {c : Char} {l : List Char}
    (h : slugCharsOk (c :: l) = true) : slugCharsOk l = true := by
  rw [slugCharsOk_cons, Bool.and_eq_true] at h
  exact h.2

theorem slugCharsOk_head {c : Char} {l : List Char}
    (h : slugCharsOk (c :: l) = true) : (isSlugChar c || c == '-') = true := by
  rw [slugCharsOk_cons, Bool.and_eq_true] at h
  exact h.1

theorem slugCharsOk_dropLeadingDash {l : List Char}
    (h : slugCharsOk l = true) : slugCharsOk (dropLeadingDash l) = true := by
  cases l with
  | nil => exact h
  | cons c t =>
    rw [dropLeadingDash_cons]
    split
    · exact slugCharsOk_tail h
    · exact h

theorem slugCharsOk_dropTrailingDash {l : List Char}
    (h : slugCharsOk l = true) : slugCharsOk (dropTrailingDash l) = true := by
  induction l with
  | nil => exact h
  | cons c t ih =>
    cases t with
    | nil =>
      unfold dropTrailingDash
      split
      · rfl
      · exact h
    | cons d t' =>
      show slugCharsOk (c :: dropTrailingDash (d :: t')) = true
      rw [slugCharsOk_cons, Bool.and_eq_true]
      exact ⟨slugCharsOk_head h, ih (slugCharsOk_tail h)⟩

theorem noDoubleDash_dropLeadingDash {l : List Char}
    (h : noDoubleDash l = true) : noDoubleDash (dropLeadingDash l) = true := by
  cases l with
  | nil => exact h
  | cons c t =>
    rw [dropLeadingDash_cons]
    split
    · exact noDoubleDash_tail h
    · exact h

theorem dropTrailingDash_head? {l : List Char} {c : Char}
    (h : (dropTrailingDash l).head? = some c) : l.head? = some c := by
  cases l with
  | nil => simp [dropTrailingDash] at h
  | cons d t =>
    cases t with
    | nil =>
      unfold dropTrailingDash at h
      split at h
      · simp at h
      · exact h
    | cons e t' => exact h

theorem noDoubleDash_dropTrailingDash {l : List Char}
    (h : noDoubleDash l = true) : noDoubleDash (dropTrailingDash l) = true := by
  induction l with
  | nil => exact h
  | cons c t ih =>
    cases t with
    | nil =>
      unfold dropTrailingDash
      split
      · rfl
      · exact h
    | cons d t' =>
      show noDoubleDash (c :: dropTrailingDash (d :: t')) = true
      refine noDoubleDash_cons (ih (noDoubleDash_tail h)) ?_
      intro e he
      have : (d :: t').head? = some e := dropTrailingDash_head? he
      simp only [List.head?_cons, Option.some.injEq] at this
      subst this
      exact noDoubleDash_pair h

theorem dropTrailingDash_eq_nil {l : List Char}
    (h : dropTrailingDash l = []) : l = [] ∨ l = ['-'] := by
  cases l with
  | nil => exact Or.inl rfl
  | cons c t =>
    cases t with
    | nil =>
      unfold dropTrailingDash at h
      split at h
      · rename_i hc
        exact Or.inr (by rw [hc])
      · exact absurd h (by simp)
    | cons d t' => exact absurd h (by simp [dropTrailingDash])

theorem dropLeadingDash_head {l : List Char} (h : noDoubleDash l = true)
    {c : Char} (hc : (dropLeadingDash l).head? = some c) : c ≠ '-' := by
  cases l with
  | nil => simp [dropLeadingDash] at hc
  | cons d t =>
    rw [dropLeadingDash_cons] at hc
    by_cases hd : d = '-'
    · rw [if_pos hd] at hc
      subst hd
      intro hc'
      subst hc'
      exact noDoubleDash_dash_head h hc
    · rw [if_neg hd] at hc
      simp only [List.head?_cons, Option.some.injEq] at hc
      subst hc
      exact hd

theorem dropTrailingDash_getLast {l : List Char} (h : noDoubleDash l = true)
    {c : Char} (hc : (dropTrailingDash l).getLast? = some c) : c ≠ '-' := by
  induction l with
  | nil => simp [dropTrailingDash] at hc
  | cons d t ih =>
    cases t with
    | nil =>
      rw [dropTrailingDash_singleton] at hc
      by_cases hd : d = '-'
      · rw [if_pos hd] at hc
        simp at hc
      · rw [if_neg hd] at hc
        simp only [List.getLast?_singleton, Option.some.injEq] at hc
        subst hc
        exact hd
    | cons e t' =>
      rw [dropTrailingDash_cons₂] at hc
      cases hr : dropTrailingDash (e :: t') with
      | nil =>
        rw [hr] at hc
        simp only [List.getLast?_singleton, Option.some.injEq] at hc
        subst hc
        rcases dropTrailingDash_eq_nil hr with h' | h'
        · exact absurd h' (by simp)
        · rw [h'] at h
          intro hd
          exact noDoubleDash_pair h ⟨hd, rfl⟩
      | cons x r' =>
        rw [hr, List.getLast?_cons_cons, ← hr] at hc
        exact ih (noDoubleDash_tail h) hc

theorem generateSlug_chars (l : List Char) :
    slugCharsOk (generateSlug l) = true :=
  slugCharsOk_dropTrailingDash
    (slugCharsOk_dropLeadingDash (collapseAux_chars false _))

theorem generateSlug_noDD (l : List Char) :
    noDoubleDash (generateSlug l) = true :=
  noDoubleDash_dropTrailingDash
    (noDoubleDash_dropLeadingDash (collapseAux_noDD false _))

theorem generateSlug_head (l : List Char) {c : Char}
    (h : (generateSlug l).head? = some c) : c ≠ '-' :=
  dropLeadingDash_head (collapseAux_noDD false _) (dropTrailingDash_head? h)

theorem generateSlug_last (l : List Char) {c : Char}
    (h : (generateSlug l).getLast? = some c) : c ≠ '-' :=
  dropTrailingDash_getLast
    (noDoubleDash_dropLeadingDash (collapseAux_noDD false _)) h

/-- C8: for every input string `T`, `generateSlug T` contains only
lower-case ASCII alphanumerics and `-` separators, has no two consecutive
dashes, and neither starts nor ends with a dash. -/
theorem generateSlug_wellformed (s : String) :
    slugCharsOk (generateSlugS s).data = true ∧
    noDoubleDash (generateSlugS s).data = true ∧
    (∀ c, (generateSlugS s).data.head? = some c → c ≠ '-') ∧
    (∀ c, (generateSlugS s).data.getLast? = some c → c ≠ '-') :=
  ⟨generateSlug_chars s.data, generateSlug_noDD s.data,
   fun _ h => generateSlug_head s.data h,
   fun _ h => generateSlug_last s.data h⟩

/-- Witness for C8 at the spec's own example title `"Customer Feedback!!!"`,
whose slug is `"customer-feedback"`. -/
theorem generateSlug_wellformed_witness :
    generateSlugS "Customer Feedback!!!" = "customer-feedback" ∧ 'c' ≠ '-' :=
  ⟨by decide,
   (generateSlug_wellformed "Customer Feedback!!!").2.2.1 'c' (by decide)⟩

theorem map_jsToLower_fix {l : List Char} (h : slugCharsOk l = true) :
    l.map jsToLower = l := by
  induction l with
  | nil => rfl
  | cons c t ih =>
    have hc := slugCharsOk_head h
    have hfix : jsToLower c = c := by
      rcases Bool.or_eq_true_iff.mp hc with h1 | h1
      · exact jsToLower_fixes_slugChar h1
      · rw [eq_of_beq h1]
        exact jsToLower_dash
    simp only [List.map_cons, hfix, ih (slugCharsOk_tail h)]

theorem collapseAux_false_cons (c : Char) (cs : List Char) :
    collapseAux false (c :: cs) =
      if isSlugChar c = true then c :: collapseAux false cs
      else '-' :: collapseAux true cs := by
  by_cases h : isSlugChar c = true
  · simp [collapseAux, h]
  · simp [collapseAux, h]

theorem collapseAux_true_cons (c : Char) (cs : List Char) :
    collapseAux true (c :: cs) =
      if isSlugChar c = true then c :: collapseAux false cs
      else collapseAux true cs := by
  by_cases h : isSlugChar c = true
  · simp [collapseAux, h]
  · simp [collapseAux, h]

theorem collapseAux_fix {l : List Char} (hc : slugCharsOk l = true)
    (hd : noDoubleDash l = true) :
    collapseAux false l = l ∧
    ((∀ c, l.head? = some c → c ≠ '-') → collapseAux true l = l) := by
  induction l with
  | nil => exact ⟨rfl, fun _ => rfl⟩
  | cons c t ih =>
    rcases ih (slugCharsOk_tail hc) (noDoubleDash_tail hd) with ⟨ihf, iht⟩
    by_cases h1 : isSlugChar c = true
    · constructor
      · rw [collapseAux_false_cons, if_pos h1, ihf]
      · intro _
        rw [collapseAux_true_cons, if_pos h1, ihf]
    · have hdash : c = '-' := by
        rcases Bool.or_eq_true_iff.mp (slugCharsOk_head hc) with h' | h'
        · exact absurd h' h1
        · exact eq_of_beq h'
      subst hdash
      constructor
      · rw [collapseAux_false_cons, if_neg h1]
        have ht : collapseAux true t = t := by
          refine iht ?_
          intro e he hee
          exact noDoubleDash_dash_head hd (hee ▸ he)
        rw [ht]
      · intro hh
        exact absurd rfl (hh '-' rfl)

theorem dropLeadingDash_fix {l : List Char}
    (h : ∀ c, l.head? = some c → c ≠ '-') : dropLeadingDash l = l := by
  cases l with
  | nil => rfl
  | cons c t =>
    rw [dropLeadingDash_cons, if_neg (h c rfl)]

theorem dropTrailingDash_fix {l : List Char}
    (h : ∀ c, l.getLast? = some c → c ≠ '-') : dropTrailingDash l = l := by
  induction l with
  | nil => rfl
  | cons c t ih =>
    cases t with
    | nil =>
      rw [dropTrailingDash_singleton, if_neg (h c (by simp))]
    | cons d t' =>
      rw [dropTrailingDash_cons₂]
      rw [ih ?_]
      intro e he
      exact h e (by rw [List.getLast?_cons_cons]; exact he)

/-- Applying the whole pipeline to an already-canonical slug changes
nothing. -/
theorem generateSlug_fix {l : List Char}
    (hc : slugCharsOk l = true) (hd : noDoubleDash l = true)
    (hh : ∀ c, l.head? = some c → c ≠ '-')
    (hl : ∀ c, l.getLast? = some c → c ≠ '-') :
    generateSlug l = l := by
  unfold generateSlug collapseNonSlug stripEdgeDashes
  rw [map_jsToLower_fix hc, (collapseAux_fix hc hd).1,
    dropLeadingDash_fix hh, dropTrailingDash_fix hl]

/-- C9: `generateSlug` is idempotent on its own output. -/
theorem generateSlug_idempotent (s : String) :
    generateSlugS (generateSlugS s) = generateSlugS s :=
  congrArg String.mk
    (generateSlug_fix (generateSlug_chars s.data) (generateSlug_noDD s.data)
      (fun _ h => generateSlug_head s.data h)
      (fun _ h => generateSlug_last s.data h))

theorem insertField_cons (f g : StoredField) (t : List StoredField) :
    insertField f (g :: t) =
      if f.order ≤ g.order then f :: g :: t else g :: insertField f t := rfl

theorem insertField_perm (f : StoredField) (l : List StoredField) :
    List.Perm (insertField f l) (f :: l) := by
  induction l with
  | nil => exact List.Perm.refl _
  | cons g t ih =>
    rw [insertField_cons]
    split
    · exact List.Perm.refl _
    · exact (List.Perm.cons g ih).trans (List.Perm.swap f g t)

theorem sortFields_perm (l : List StoredField) :
    List.Perm (sortFields l) l := by
  induction l with
  | nil => exact List.Perm.refl _
  | cons f t ih =>
    exact (insertField_perm f (sortFields t)).trans (List.Perm.cons f ih)

theorem fieldsOrdered_cons {a : StoredField} {l : List StoredField} :
    fieldsOrdered (a :: l) = true ↔
      (∀ b, l.head? = some b → a.order ≤ b.order) ∧ fieldsOrdered l = true := by
  cases l with
  | nil => simp [fieldsOrdered]
  | cons b t =>
    show (decide (a.order ≤ b.order) && fieldsOrdered (b :: t)) = true ↔ _
    rw [Bool.and_eq_true, decide_eq_true_eq]
    constructor
    · rintro ⟨h1, h2⟩
      refine ⟨?_, h2⟩
      intro c hc
      simp only [List.head?_cons, Option.some.injEq] at hc
      exact hc ▸ h1
    · rintro ⟨h1, h2⟩
      exact ⟨h1 b rfl, h2⟩

theorem fieldsOrdered_insertField (f : StoredField) {l : List StoredField}
    (h : fieldsOrdered l = true) :
    fieldsOrdered (insertField f l) = true := by
  induction l with
  | nil => rfl
  | cons g t ih =>
    rw [insertField_cons]
    by_cases hfg : f.order ≤ g.order
    · rw [if_pos hfg]
      rw [fieldsOrdered_cons]
      refine ⟨?_, h⟩
      intro b hb
      simp only [List.head?_cons, Option.some.injEq] at hb
      exact hb ▸ hfg
    · rw [if_neg hfg]
      have hgf : g.order ≤ f.order := le_of_not_le hfg
      have ht : fieldsOrdered t = true := (fieldsOrdered_cons.mp h).2
      rw [fieldsOrdered_cons]
      refine ⟨?_, ih ht⟩
      intro b hb
      cases t with
      | nil =>
        simp only [insertField, List.head?_cons, Option.some.injEq] at hb
        exact hb ▸ hgf
      | cons x t' =>
        rw [insertField_cons] at hb
        by_cases hfx : f.order ≤ x.order
        · rw [if_pos hfx] at hb
          simp only [List.head?_cons, Option.some.injEq] at hb
          exact hb ▸ hgf
        · rw [if_neg hfx] at hb
          simp only [List.head?_cons, Option.some.injEq] at hb
          exact hb ▸ (fieldsOrdered_cons.mp h).1 x rfl

theorem sortFields_ordered (l : List StoredField) :
    fieldsOrdered (sortFields l) = true := by
  induction l with
  | nil => rfl
  | cons f t ih => exact fieldsOrdered_insertField f ih

/-- C1 counterexample: a request whose single field carries
client-supplied `order` 7 is persisted and returned with `order` 7, not
re-indexed to its position 0. -/
theorem create_reindex_cex :
    (POST cexBody []).1 = PostResult.created cexSaved ∧
    cexSaved.fields.map StoredField.order = [7] ∧
    ([7] : List Int) ≠ [0] := by
  refine ⟨by decide, by decide, by decide⟩

/-- C1 (amended): `createDefinition` does not re-index field `order`: it
persists each client-supplied `order` value verbatim, and the returned
definition's fields are the submitted ones (through `mkStored`) sorted by
that client-supplied `order` ascending — so the returned order values are
a sorted permutation of the client's, not 0,1,2,…. -/
theorem create_order_passthrough (body : CreateFormRequest)
    (state : List Form) (ht : body.title ≠ "") (hf : body.fields ≠ [])
    (hs : findUniqueSlug state (generateSlugS body.title) = none) :
    (POST body state).1 = PostResult.created
      { title := body.title, slug := generateSlugS body.title,
        fields := sortFields (body.fields.map mkStored) } ∧
    fieldsOrdered (sortFields (body.fields.map mkStored)) = true ∧
    List.Perm ((sortFields (body.fields.map mkStored)).map StoredField.order)
      (body.fields.map ReqField.order) := by
  have hcond : ¬(body.title = "" ∨ body.fields = []) := by
    rintro (h | h)
    · exact ht h
    · exact hf h
  refine ⟨?_, sortFields_ordered _, ?_⟩
  · simp only [POST, if_neg hcond, hs]
  · have hp := (sortFields_perm (body.fields.map mkStored)).map StoredField.order
    rw [List.map_map] at hp
    exact hp

/-- Witness for the amended C1, at the concrete one-field request with
client-supplied order 7. -/
theorem create_order_passthrough_witness :
    (POST cexBody []).1 = PostResult.created
      { title := cexBody.title, slug := generateSlugS cexBody.title,
        fields := sortFields (cexBody.fields.map mkStored) } ∧
    fieldsOrdered (sortFields (cexBody.fields.map mkStored)) = true ∧
    List.Perm ((sortFields (cexBody.fields.map mkStored)).map StoredField.order)
      (cexBody.fields.map ReqField.order) :=
  create_order_passthrough cexBody [] (by decide) (by decide) (by decide)

/-- C3 counterexample: the whitespace-only title `"   "` is NOT rejected
with a validation error: against empty storage the handler creates and
writes a definition (its slug the empty string). -/
theorem whitespace_title_cex :
    (POST wsBody []).1 = PostResult.created
      { title := "   ", slug := "",
        fields := [{ label := "q", type := FieldType.TEXT, required := false,
                     order := 0 }] } ∧
    (POST wsBody []).2 ≠ [] := by
  refine ⟨by decide, by decide⟩

/-- C3 (amended): only the exactly-empty title fails the `!title` check,
with the missing-required-fields validation error and no storage write;
the title is not trimmed first, so a whitespace-only title passes. -/
theorem empty_title_rejected (body : CreateFormRequest) (state : List Form)
    (h : body.title = "") :
    POST body state = (PostResult.missingFields, state) := by
  simp only [POST, if_pos (Or.inl h)]

/-- Witness for the amended C3 at a concrete empty-title request. -/
theorem empty_title_rejected_witness :
    POST { title := "", slug := "", fields := [textField0] } [] =
      (PostResult.missingFields, []) :=
  empty_title_rejected _ [] rfl

/-- C4 counterexample: the title `"数字"` (no ASCII alphanumerics)
derives the empty slug, yet the handler reports no validation error: it
creates and stores a definition whose slug is `""`. -/
theorem unslugifiable_title_cex :
    generateSlugS "数字" = "" ∧
    (POST kanjiBody []).1 = PostResult.created
      { title := "数字", slug := "",
        fields := [{ label := "q", type := FieldType.TEXT, required := false,
                     order := 0 }] } ∧
    (POST kanjiBody []).2 ≠ [] := by
  refine ⟨by decide, by decide, by decide⟩

/-- C4 (amended): a non-empty title whose derived slug is empty is not
rejected: `createDefinition` proceeds with `slug = ""`, creating the
definition whenever no stored definition already has the empty slug. -/
theorem empty_slug_proceeds (body : CreateFormRequest) (state : List Form)
    (ht : body.title ≠ "") (hf : body.fields ≠ [])
    (hslug : generateSlugS body.title = "")
    (hs : findUniqueSlug state "" = none) :
    (POST body state).1 = PostResult.created
      { title := body.title, slug := "",
        fields := sortFields (body.fields.map mkStored) } ∧
    (POST body state).2 =
      state ++ [{ title := body.title, slug := "",
                  fields := body.fields.map mkStored }] := by
  have hcond : ¬(body.title = "" ∨ body.fields = []) := by
    rintro (h | h)
    · exact ht h
    · exact hf h
  constructor <;> simp only [POST, if_neg hcond, hslug, hs]

/-- Witness for the amended C4 at the concrete `"数字"` request. -/
theorem empty_slug_proceeds_witness :
    (POST kanjiBody []).1 = PostResult.created
      { title := kanjiBody.title, slug := "",
        fields := sortFields (kanjiBody.fields.map mkStored) } ∧
    (POST kanjiBody []).2 =
      [] ++ [{ title := kanjiBody.title, slug := "",
               fields := kanjiBody.fields.map mkStored }] :=
  empty_slug_proceeds kanjiBody [] (by decide) (by decide) (by decide)
    (by decide)

/-- C5 counterexample: when the pre-check saw no conflict but the
storage create fails with the uniqueness-violation signal (the racing
duplicate of §5), the handler reports the generic 500 server error, not
the slug-conflict result. -/
theorem unique_violation_cex :
    POSTLow cexBody none (Except.error StorageFailure.uniqueViolation) =
      PostResult.serverError ∧
    PostResult.serverError ≠ PostResult.slugConflict := by
  refine ⟨by decide, by decide⟩

/-- C5 (amended): every storage failure thrown at create time — the
uniqueness violation included — lands in the handler's single `catch`
and is reported as the opaque 500 server error; the slug-conflict result
comes only from the pre-check. -/
theorem unique_violation_generic_error (body : CreateFormRequest)
    (e : StorageFailure) (ht : body.title ≠ "") (hf : body.fields ≠ []) :
    POSTLow body none (Except.error e) = PostResult.serverError := by
  have hcond : ¬(body.title = "" ∨ body.fields = []) := by
    rintro (h | h)
    · exact ht h
    · exact hf h
  simp only [POSTLow, if_neg hcond]

/-- Witness for the amended C5. -/
theorem unique_violation_generic_error_witness :
    POSTLow cexBody none (Except.error StorageFailure.uniqueViolation) =
      PostResult.serverError :=
  unique_violation_generic_error cexBody StorageFailure.uniqueViolation
    (by decide) (by decide)

/-- C2 counterexample: a RADIO field submitted with options `["a", ""]`
is created and read back without them; the read path renders the fixed
option values `option1`,`option2`, not the submitted list. -/
theorem options_verbatim_cex :
    (POST radioBody []).1 = PostResult.created radioSaved ∧
    getForm (POST radioBody []).2 "b" = some radioSaved ∧
    radioSaved.fields.map renderedOptionValues = [["option1", "option2"]] ∧
    (["option1", "option2"] : List String) ≠ ["a", ""] := by
  refine ⟨by decide, by decide, by decide, by decide⟩

/-- C2 (amended): options submitted with RADIO/CHECKBOX fields are
discarded at create time — the persisted fields carry only
label/type/required/order (`mkStored`) — and on read the rendering
template emits the fixed option values `option1`,`option2` for every
RADIO or CHECKBOX field, independent of what was submitted. -/
theorem create_drops_options (body : CreateFormRequest) (state : List Form)
    (ht : body.title ≠ "") (hf : body.fields ≠ [])
    (hs : findUniqueSlug state (generateSlugS body.title) = none) :
    (POST body state).1 = PostResult.created
      { title := body.title, slug := generateSlugS body.title,
        fields := sortFields (body.fields.map mkStored) } ∧
    (∀ f : StoredField,
      f.type = FieldType.RADIO ∨ f.type = FieldType.CHECKBOX →
      renderedOptionValues f = ["option1", "option2"]) := by
  have hcond : ¬(body.title = "" ∨ body.fields = []) := by
    rintro (h | h)
    · exact ht h
    · exact hf h
  refine ⟨by simp only [POST, if_neg hcond, hs], ?_⟩
  rintro f (hf' | hf') <;> simp [renderedOptionValues, hf']

/-- Witness for the amended C2, at the concrete RADIO request. -/
theorem create_drops_options_witness :
    (POST radioBody []).1 = PostResult.created
      { title := radioBody.title, slug := generateSlugS radioBody.title,
        fields := sortFields (radioBody.fields.map mkStored) } ∧
    (∀ f : StoredField,
      f.type = FieldType.RADIO ∨ f.type = FieldType.CHECKBOX →
      renderedOptionValues f = ["option1", "option2"]) :=
  create_drops_options radioBody [] (by decide) (by decide) (by decide)

theorem POST_eq_created {body : CreateFormRequest} {state : List Form}
    (hcond : ¬(body.title = "" ∨ body.fields = []))
    (hfind : findUniqueSlug state (generateSlugS body.title) = none) :
    POST body state =
      (PostResult.created
        { title := body.title, slug := generateSlugS body.title,
          fields := sortFields (body.fields.map mkStored) },
       state ++ [{ title := body.title, slug := generateSlugS body.title,
                   fields := body.fields.map mkStored }]) := by
  simp only [POST, if_neg hcond, hfind]

theorem POST_eq_conflict {body : CreateFormRequest} {state : List Form}
    {g : Form} (hcond : ¬(body.title = "" ∨ body.fields = []))
    (hfind : findUniqueSlug state (generateSlugS body.title) = some g) :
    POST body state = (PostResult.slugConflict, state) := by
  simp only [POST, if_neg hcond, hfind]

/-- C6: of two sequential valid create requests whose titles derive the
same slug, the first is created, the second fails with the slug-conflict
result and writes nothing, and the first stays retrievable by the slug. -/
theorem duplicate_slug_conflict (b1 b2 : CreateFormRequest)
    (state : List Form)
    (ht1 : b1.title ≠ "") (hf1 : b1.fields ≠ [])
    (ht2 : b2.title ≠ "") (hf2 : b2.fields ≠ [])
    (hsame : generateSlugS b2.title = generateSlugS b1.title)
    (hfresh : findUniqueSlug state (generateSlugS b1.title) = none) :
    (∃ f, (POST b1 state).1 = PostResult.created f) ∧
    (POST b2 (POST b1 state).2).1 = PostResult.slugConflict ∧
    (POST b2 (POST b1 state).2).2 = (POST b1 state).2 ∧
    (∃ g, getForm (POST b1 state).2 (generateSlugS b2.title) = some g ∧
      g.title = b1.title) := by
  have hcond1 : ¬(b1.title = "" ∨ b1.fields = []) := by
    rintro (h | h)
    · exact ht1 h
    · exact hf1 h
  have hcond2 : ¬(b2.title = "" ∨ b2.fields = []) := by
    rintro (h | h)
    · exact ht2 h
    · exact hf2 h
  have hpost1 := POST_eq_created hcond1 hfresh
  have hstate1 : (POST b1 state).2 =
      state ++ [{ title := b1.title, slug := generateSlugS b1.title,
                  fields := b1.fields.map mkStored }] :=
    congrArg Prod.snd hpost1
  have hfind2 : findUniqueSlug (POST b1 state).2 (generateSlugS b2.title) =
      some { title := b1.title, slug := generateSlugS b1.title,
             fields := b1.fields.map mkStored } := by
    rw [hstate1, hsame]
    unfold findUniqueSlug
    rw [List.find?_append]
    have hn : state.find? (fun f => f.slug == generateSlugS b1.title) =
        none := hfresh
    rw [hn]
    simp [List.find?]
  have hpost2 := POST_eq_conflict hcond2 hfind2
  refine ⟨⟨_, congrArg Prod.fst hpost1⟩, congrArg Prod.fst hpost2,
    by rw [hpost2], ?_⟩
  refine ⟨{ title := b1.title, slug := generateSlugS b1.title,
            fields := sortFields (b1.fields.map mkStored) }, ?_, rfl⟩
  simp only [getForm, hfind2]

/-- Witness for C6: two concrete titles `"My Form!"` and `"my form"`
both derive the slug `my-form`. -/
theorem duplicate_slug_conflict_witness :
    (∃ f, (POST dupBody1 []).1 = PostResult.created f) ∧
    (POST dupBody2 (POST dupBody1 []).2).1 = PostResult.slugConflict ∧
    (POST dupBody2 (POST dupBody1 []).2).2 = (POST dupBody1 []).2 ∧
    (∃ g, getForm (POST dupBody1 []).2 (generateSlugS dupBody2.title) =
        some g ∧ g.title = dupBody1.title) :=
  duplicate_slug_conflict dupBody1 dupBody2 [] (by decide) (by decide)
    (by decide) (by decide) (by decide) (by decide)

theorem find?_slug_of_mem {state : List Form} {slug : String} {g : Form}
    (huniq : state.Pairwise (fun f g => f.slug ≠ g.slug))
    (hg : g ∈ state) (hslug : g.slug = slug) :
    findUniqueSlug state slug = some g := by
  induction state with
  | nil => cases hg
  | cons a t ih =>
    rcases List.mem_cons.mp hg with rfl | hgt
    · unfold findUniqueSlug
      rw [List.find?_cons_of_pos]
      simp [hslug]
    · have hpc := List.pairwise_cons.mp huniq
      have hne : a.slug ≠ slug := by
        rw [← hslug]
        exact hpc.1 g hgt
      unfold findUniqueSlug
      rw [List.find?_cons_of_neg _ (by simp [hne])]
      exact ih hpc.2 hgt

/-- C7: over a storage state whose slugs are pairwise distinct (the
uniqueness invariant the storage constraint maintains), reading a slug
no stored definition has yields the not-found page, and reading a stored
definition's slug renders exactly that definition with its fields sorted
by `order` ascending. -/
theorem getDefinitionBySlug_spec (state : List Form) (slug : String)
    (huniq : state.Pairwise (fun f g => f.slug ≠ g.slug)) :
    ((∀ f ∈ state, f.slug ≠ slug) →
      FormPage state slug = PageResult.notFound) ∧
    (∀ g ∈ state, g.slug = slug →
      FormPage state slug =
        PageResult.render { g with fields := sortFields g.fields } ∧
      fieldsOrdered (sortFields g.fields) = true) := by
  constructor
  · intro habs
    have hnone : findUniqueSlug state slug = none := by
      unfold findUniqueSlug
      rw [List.find?_eq_none]
      intro x hx
      simp [habs x hx]
    simp [FormPage, getForm, hnone]
  · intro g hg hslug
    have hsome := find?_slug_of_mem huniq hg hslug
    refine ⟨?_, sortFields_ordered _⟩
    simp [FormPage, getForm, hsome]

/-- Witness for C7 over a one-form state, at a missing slug and at the
stored slug. -/
theorem getDefinitionBySlug_spec_witness :
    FormPage [demoForm] "missing" = PageResult.notFound ∧
    FormPage [demoForm] "demo" =
      PageResult.render { demoForm with fields := sortFields demoForm.fields } ∧
    fieldsOrdered (sortFields demoForm.fields) = true :=
  ⟨(getDefinitionBySlug_spec [demoForm] "missing" (by simp)).1 (by decide),
   (getDefinitionBySlug_spec [demoForm] "demo" (by simp)).2 demoForm
     (by simp) rfl⟩

/-- C10: the user-editable `slug` in the request body is never read:
two bodies differing only in it give identical results and state, and a
created definition's slug is always `generateSlug` of the title. -/
theorem body_slug_ignored (body : CreateFormRequest) (s1 s2 : String)
    (state : List Form) :
    POST { body with slug := s1 } state =
      POST { body with slug := s2 } state ∧
    (∀ f, (POST body state).1 = PostResult.created f →
      f.slug = generateSlugS body.title) := by
  constructor
  · cases body with
    | mk t s fs => rfl
  · intro f hf
    by_cases hcond : (body.title = "" ∨ body.fields = [])
    · rw [show POST body state = (PostResult.missingFields, state) from by
        simp only [POST, if_pos hcond]] at hf
      exact PostResult.noConfusion hf
    · cases hfind : findUniqueSlug state (generateSlugS body.title) with
      | some g =>
        rw [show (POST body state).1 = PostResult.slugConflict from by
          simp only [POST, if_neg hcond, hfind]] at hf
        exact PostResult.noConfusion hf
      | none =>
        rw [show (POST body state).1 = PostResult.created
            { title := body.title, slug := generateSlugS body.title,
              fields := sortFields (body.fields.map mkStored) } from by
          simp only [POST, if_neg hcond, hfind]] at hf
        cases hf
        rfl

/-- Witness for C10 at a concrete body and two supplied slugs. -/
theorem body_slug_ignored_witness :
    POST { cexBody with slug := "zzz" } [] =
      POST { cexBody with slug := "qqq" } [] ∧
    cexSaved.slug = generateSlugS cexBody.title :=
  ⟨(body_slug_ignored cexBody "zzz" "qqq" []).1,
   (body_slug_ignored cexBody "zzz" "qqq" []).2 cexSaved (by decide)⟩

end FormApp
